import Mathlib

/-!
Verification of the BLE radio driver and connection-hopping engine
(`chips/nrf5x/src/ble_connection.rs`, `chips/nrf52/src/radio.rs`).

Machine integers are modelled as `Nat` with explicit `% 2^w` where the
source's wrap-around semantics matter (release-mode Rust wrapping
arithmetic on `u8`/`u32`).  Fallible paths (Rust panics: division by
zero, `unwrap` on `None`, explicit `panic!` calls) are modelled with
`Option`/`Except`.
-/

/-! ## Hopping engine: `chips/nrf5x/src/ble_connection.rs` -/

/-- `NUMBER_CHANNELS` from `ble_connection.rs`. -/
def NUMBER_CHANNELS : Nat := 40

/-- `NUMBER_DATA_CHANNELS = NUMBER_CHANNELS - 3` from `ble_connection.rs`. -/
def NUMBER_DATA_CHANNELS : Nat := NUMBER_CHANNELS - 3

/-- Modelled from the spec: `LLData` is defined in
`ble_advertising_driver.rs`, which is not under `src/`; its field list is
reproduced in a comment at the top of `ble_connection.rs`.  Only the two
fields read by `ConnectionData` are modelled: the 5-byte channel map
`chm` (a list of five bytes, each `< 256`) and `hop_and_sca`
(low 5 bits = hop increment, high 3 bits = sleep-clock accuracy). -/
structure LLData where
  chm : List Nat
  hop_and_sca : Nat
deriving DecidableEq, Repr

/-- Bit `k` (LSB first, byte `k / 8`, bit `k % 8`) of the channel map, as
the `u8` shift-and-mask loop of `expand_channel_map` computes it. -/
def channelBit (chm : List Nat) (k : Nat) : Nat :=
  ((chm.getD (k / 8) 0) / 2 ^ (k % 8)) % 2

/-- `ConnectionData::expand_channel_map`: iterates `i` over the 5 bytes
and `j` over all 8 bits of each byte, writing bit `8*i + j` into entry
`8*i + j` of a 40-entry map and counting every set bit it visits.  The
entry at index `k < 40` is `channelBit chm k`, and the count is the
number of ones among all 40 entries. -/
def expandChannelMap (chm : List Nat) : List Nat × Nat :=
  let channels := (List.range NUMBER_CHANNELS).map (channelBit chm)
  (channels, channels.count 1)

/-- `ConnectionData` from `ble_connection.rs`.  `channels` is the
40-entry expanded map (`ChannelMap = [u8; NUMBER_CHANNELS]`). -/
structure ConnectionData where
  last_unmapped_channel : Nat
  channels : List Nat
  conn_event_counter : Nat
  hop_increment : Nat
  number_used_channels : Nat
deriving DecidableEq, Repr

/-- `ConnectionData::new`: expands the channel map and takes the low five
bits of `hop_and_sca` (`& 0b11111`) as the hop increment. -/
def ConnectionData.new (lldata : LLData) : ConnectionData :=
  let e := expandChannelMap lldata.chm
  { last_unmapped_channel := 0
    channels := e.1
    conn_event_counter := 0
    hop_increment := lldata.hop_and_sca % 32
    number_used_channels := e.2 }

/-- `ConnectionData::update_lldata`: re-expands the channel map, leaving
the other fields unchanged. -/
def ConnectionData.update_lldata (cd : ConnectionData) (lldata : LLData) :
    ConnectionData :=
  let e := expandChannelMap lldata.chm
  { cd with channels := e.1, number_used_channels := e.2 }

/-- Modelled from the spec: `RadioChannel` and
`RadioChannel::from_channel_index` live in `nrf5x/ble_advertising_hil.rs`,
which is not under `src/`.  Per the spec ("`channel`: optional BLE channel
index (0–39; 37/38/39 are advertising)", "Writes `frequency =
channel_index` (BLE frequency register takes raw index 0–39)"), a radio
channel is identified with its index, and `from_channel_index` succeeds
exactly on indices 0–39. -/
def fromChannelIndex (n : Nat) : Option Nat :=
  if n ≤ 39 then some n else none

/-- The remapping table built inside `next_channel`: scanning
`channels[0..channels.len()]` in order and collecting the indices whose
entry is 1.  The Rust table is a 40-entry array with zeros after the
filled prefix, so reading position `r` of it is `(remapTable chs).getD r 0`. -/
def remapTable (channels : List Nat) : List Nat :=
  (List.range channels.length).filter (fun i => channels.getD i 0 = 1)

/-- The local `unmapped_channel` of `next_channel`:
`(last_unmapped_channel + hop_increment) % NUMBER_DATA_CHANNELS`, where
the `u8` addition wraps at 256. -/
def unmappedNext (cd : ConnectionData) : Nat :=
  ((cd.last_unmapped_channel + cd.hop_increment) % 256) % 37

/-- The state mutation of `next_channel`:
`self.last_unmapped_channel = unmapped_channel`. -/
def advance (cd : ConnectionData) : ConnectionData :=
  { cd with last_unmapped_channel := unmappedNext cd }

/-- `ConnectionData::next_channel`.  A used unmapped channel is returned
directly; otherwise the remapping table is consulted at index
`unmapped % number_used_channels`.  `none` models a Rust panic: the
division by zero when `number_used_channels = 0`, or `unwrap` of a failed
`from_channel_index`. -/
def nextChannel (cd : ConnectionData) : Option (Nat × ConnectionData) :=
  if cd.channels.getD (unmappedNext cd) 0 = 1 then
    (fromChannelIndex (unmappedNext cd)).map (fun c => (c, advance cd))
  else if cd.number_used_channels = 0 then
    none
  else
    (fromChannelIndex ((remapTable cd.channels).getD
        (unmappedNext cd % cd.number_used_channels) 0)).map
      (fun c => (c, advance cd))

/-- A sequence of `n` successive `next_channel` calls, returning the list
of produced channels (`none` if any call panics). -/
def runChannels : Nat → ConnectionData → Option (List Nat)
  | 0, _ => some []
  | n + 1, cd =>
    (nextChannel cd).bind fun p => (runChannels n p.2).map (p.1 :: ·)

/-- Count of the set bits among only the 37 significant channel-map bits
(channels 0–36).  This follows the spec's words ("expand the 5-byte
channel map bitfield … into a 37-entry bool array and count the ones",
"37 bits significant") and is compared against what the source computes. -/
def significantBitCount (chm : List Nat) : Nat :=
  ((List.range NUMBER_DATA_CHANNELS).map (channelBit chm)).count 1

/-- Count of the set bits among the channel-map bits above channel 36
(bit positions 37, 38, 39 of the 5-byte field). -/
def highBitCount (chm : List Nat) : Nat :=
  (([37, 38, 39]).map (channelBit chm)).count 1

-- Sanity examples (spec §8): hop 5, all 37 channels used.
example :
    runChannels 9
      (ConnectionData.new { chm := [255, 255, 255, 255, 31], hop_and_sca := 5 }) =
    some [5, 10, 15, 20, 25, 30, 35, 3, 8] := by decide

example :
    runChannels 1
      (ConnectionData.new { chm := [17, 17, 0, 0, 0], hop_and_sca := 16 }) =
    some [0] := by decide

/-! ## Claims about the hopping engine -/

lemma range40_split : List.range 40 = List.range 37 ++ [37, 38, 39] := by decide

lemma expandChannelMap_count (chm : List Nat) :
    (expandChannelMap chm).2 = significantBitCount chm + highBitCount chm := by
  simp only [expandChannelMap, significantBitCount, highBitCount,
    NUMBER_CHANNELS, NUMBER_DATA_CHANNELS]
  rw [range40_split, List.map_append, List.count_append]

lemma expandChannelMap_getD (chm : List Nat) (k : Nat) (hk : k < 40) :
    (expandChannelMap chm).1.getD k 0 = channelBit chm k := by
  have hlen : (expandChannelMap chm).1.length = 40 := by
    simp [expandChannelMap, NUMBER_CHANNELS]
  rw [List.getD_eq_getElem _ _ (by omega)]
  simp [expandChannelMap, NUMBER_CHANNELS]

/-- Claim C1 (counterexample): with the channel-map bytes
`[0, 0, 0, 0, 0xE0]` — only the three bits above channel 36 set —
`ConnectionData::new` sets `number_used_channels = 3`, not the count (0)
of set bits among the 37 significant bits, refuting the claim that bits
above channel 36 contribute nothing to the count. -/
theorem C1_counterexample :
    ¬ ((ConnectionData.new { chm := [0, 0, 0, 0, 224], hop_and_sca := 5 }).number_used_channels
        = significantBitCount [0, 0, 0, 0, 224]) := by decide

/-- Claim C1 (amended): `ConnectionData::new` and `update_lldata` expand
the 5-byte channel map LSB-first into a 40-entry array whose entry `k`
(`k < 40`) is bit `k` of the map — so bits 37–39 are stored and hence
participate in `next_channel`'s remapping-table scan — and set
`number_used_channels` to the count of set bits among all 40 bit
positions: the 37 significant ones plus any set bits at positions
37–39. -/
theorem C1_expand_all_40_bits (lldata : LLData) (cd : ConnectionData) :
    ((ConnectionData.new lldata).channels.length = 40 ∧
      (∀ k, k < 40 →
        (ConnectionData.new lldata).channels.getD k 0 = channelBit lldata.chm k) ∧
      (ConnectionData.new lldata).number_used_channels
        = significantBitCount lldata.chm + highBitCount lldata.chm) ∧
    ((cd.update_lldata lldata).channels.length = 40 ∧
      (∀ k, k < 40 →
        (cd.update_lldata lldata).channels.getD k 0 = channelBit lldata.chm k) ∧
      (cd.update_lldata lldata).number_used_channels
        = significantBitCount lldata.chm + highBitCount lldata.chm) := by
  refine ⟨⟨?_, ?_, ?_⟩, ⟨?_, ?_, ?_⟩⟩
  · simp [ConnectionData.new, expandChannelMap, NUMBER_CHANNELS]
  · intro k hk
    exact expandChannelMap_getD lldata.chm k hk
  · exact expandChannelMap_count lldata.chm
  · simp [ConnectionData.update_lldata, expandChannelMap, NUMBER_CHANNELS]
  · intro k hk
    exact expandChannelMap_getD lldata.chm k hk
  · exact expandChannelMap_count lldata.chm

/-- Claim C1 (witness for the amended theorem at a concrete input). -/
theorem C1_expand_all_40_bits_witness :
    (ConnectionData.new { chm := [1, 0, 0, 0, 32], hop_and_sca := 5 }).channels.getD 37 0 = 1 ∧
    (ConnectionData.new { chm := [1, 0, 0, 0, 32], hop_and_sca := 5 }).number_used_channels
      = significantBitCount [1, 0, 0, 0, 32] + highBitCount [1, 0, 0, 0, 32] := by
  have h := C1_expand_all_40_bits { chm := [1, 0, 0, 0, 32], hop_and_sca := 5 }
    (ConnectionData.new { chm := [0, 0, 0, 0, 0], hop_and_sca := 5 })
  refine ⟨?_, h.1.2.2⟩
  rw [h.1.2.1 37 (by decide)]
  decide

/-- Claim C2: with `hop_increment = 7`, channels 0–31 used (bits 0–31 of
the channel map set, all others clear) and `last_unmapped_channel = 0`,
five successive `next_channel` calls return 7, 14, 21, 28 and then 3
(the fifth hop lands on unused unmapped channel 35 and remaps via
`35 mod 32 = 3` into the used-channel table). -/
theorem C2_hop7_sequence :
    runChannels 5
      (ConnectionData.new { chm := [255, 255, 255, 255, 0], hop_and_sca := 7 }) =
    some [7, 14, 21, 28, 3] := by decide

/-! ### Coverage of the hop sequence (claim C3)

`next_channel` always stores the new unmapped channel and leaves the
other fields untouched, so a run of calls is described by iterating a
pure advance function.  Since 37 is prime and the hop increment lies in
[5, 16], 37 successive unmapped channels sweep every residue class
mod 37 exactly once, and a used channel is returned directly whenever
the unmapped channel lands on it. -/

/-- The channel produced by one `next_channel` call (ignoring panics). -/
def outOf (cd : ConnectionData) : Nat :=
  if cd.channels.getD (unmappedNext cd) 0 = 1 then unmappedNext cd
  else (remapTable cd.channels).getD
    (unmappedNext cd % cd.number_used_channels) 0

/-- The state after `k` successive `next_channel` calls. -/
def advanceK (cd : ConnectionData) : Nat → ConnectionData
  | 0 => cd
  | k + 1 => advance (advanceK cd k)

lemma advance_channels (cd : ConnectionData) :
    (advance cd).channels = cd.channels := rfl

lemma advance_hop (cd : ConnectionData) :
    (advance cd).hop_increment = cd.hop_increment := rfl

lemma advance_nused (cd : ConnectionData) :
    (advance cd).number_used_channels = cd.number_used_channels := rfl

lemma remapTable_getD_lt (chs : List Nat) (r : Nat) (h40 : chs.length = 40) :
    (remapTable chs).getD r 0 < 40 := by
  by_cases hr : r < (remapTable chs).length
  · rw [List.getD_eq_getElem _ _ hr]
    have hmem : (remapTable chs)[r] ∈ remapTable chs := List.getElem_mem hr
    have hmem2 : (remapTable chs)[r] ∈
        (List.range chs.length).filter (fun i => chs.getD i 0 = 1) := hmem
    have hrange := (List.mem_filter.mp hmem2).1
    rw [List.mem_range] at hrange
    omega
  · rw [List.getD_eq_default _ _ (Nat.le_of_not_lt hr)]
    omega

/-- One `next_channel` call never panics when `number_used_channels ≠ 0`
and the channel array has its 40 entries: it returns `outOf cd` and
mutates the state to `advance cd`. -/
lemma nextChannel_step (cd : ConnectionData) (h40 : cd.channels.length = 40)
    (hn : cd.number_used_channels ≠ 0) :
    nextChannel cd = some (outOf cd, advance cd) := by
  have hu : unmappedNext cd ≤ 39 := by
    have : unmappedNext cd < 37 := Nat.mod_lt _ (by norm_num)
    omega
  by_cases hused : cd.channels.getD (unmappedNext cd) 0 = 1
  · rw [nextChannel, if_pos hused, outOf, if_pos hused, fromChannelIndex,
      if_pos hu]
    rfl
  · have hb : (remapTable cd.channels).getD
        (unmappedNext cd % cd.number_used_channels) 0 ≤ 39 := by
      have := remapTable_getD_lt cd.channels
        (unmappedNext cd % cd.number_used_channels) h40
      omega
    rw [nextChannel, if_neg hused, if_neg hn, outOf, if_neg hused,
      fromChannelIndex, if_pos hb]
    rfl

lemma advanceK_channels (cd : ConnectionData) (k : Nat) :
    (advanceK cd k).channels = cd.channels := by
  induction k with
  | zero => rfl
  | succ k ih => rw [advanceK, advance_channels, ih]

lemma advanceK_hop (cd : ConnectionData) (k : Nat) :
    (advanceK cd k).hop_increment = cd.hop_increment := by
  induction k with
  | zero => rfl
  | succ k ih => rw [advanceK, advance_hop, ih]

lemma advanceK_nused (cd : ConnectionData) (k : Nat) :
    (advanceK cd k).number_used_channels = cd.number_used_channels := by
  induction k with
  | zero => rfl
  | succ k ih => rw [advanceK, advance_nused, ih]

lemma advanceK_advance (cd : ConnectionData) (k : Nat) :
    advanceK (advance cd) k = advanceK cd (k + 1) := by
  induction k with
  | zero => rfl
  | succ k ih => rw [advanceK, ih]; rfl

lemma advanceK_last (cd : ConnectionData)
    (h37 : cd.last_unmapped_channel < 37) (h16 : cd.hop_increment ≤ 16) :
    ∀ k, (advanceK cd k).last_unmapped_channel =
      (cd.last_unmapped_channel + k * cd.hop_increment) % 37
  | 0 => by
    simp [advanceK, Nat.mod_eq_of_lt h37]
  | k + 1 => by
    rw [advanceK]
    show unmappedNext (advanceK cd k) = _
    rw [unmappedNext, advanceK_hop, advanceK_last cd h37 h16 k]
    have hlt : (cd.last_unmapped_channel + k * cd.hop_increment) % 37
        + cd.hop_increment < 256 := by
      have := Nat.mod_lt (cd.last_unmapped_channel + k * cd.hop_increment)
        (y := 37) (by norm_num)
      omega
    rw [Nat.mod_eq_of_lt hlt, Nat.mod_add_mod, Nat.succ_mul, ← Nat.add_assoc]

/-- A run of `m` calls produces exactly the channels `outOf` of the
iterated states, with no panic, whenever the state is well-formed. -/
lemma runChannels_eq (m : Nat) :
    ∀ cd : ConnectionData, cd.channels.length = 40 →
      cd.number_used_channels ≠ 0 →
      runChannels m cd =
        some (List.ofFn fun i : Fin m => outOf (advanceK cd i)) := by
  induction m with
  | zero => intro cd _ _; simp [runChannels]
  | succ m ih =>
    intro cd h40 hn
    rw [runChannels, nextChannel_step cd h40 hn]
    show ((runChannels m (advance cd)).map (outOf cd :: ·)) = _
    rw [ih (advance cd) (by rw [advance_channels]; exact h40)
      (by rw [advance_nused]; exact hn)]
    simp only [Option.map_some', List.ofFn_succ, Option.some.injEq,
      List.cons.injEq]
    refine ⟨rfl, ?_⟩
    congr 1
    funext i
    rw [advanceK_advance]
    rfl

/-- Every residue mod 37 is hit by some of the first 37 hops: 37 is
prime and the hop increment is a nonzero residue, hence a unit. -/
lemma exists_hit (L h c : Nat) (h5 : 5 ≤ h) (h16 : h ≤ 16) (hc : c < 37) :
    ∃ k, k < 37 ∧ (L + (k + 1) * h) % 37 = c := by
  have hcop : Nat.gcd 37 h = 1 := by
    have hp : Nat.Prime 37 := by norm_num
    have hnd : ¬ (37 ∣ h) := by
      intro hd
      have := Nat.le_of_dvd (by omega) hd
      omega
    exact (Nat.Prime.coprime_iff_not_dvd hp).mpr hnd
  let f : Fin 37 → Fin 37 :=
    fun k => ⟨(L + (k.1 + 1) * h) % 37, Nat.mod_lt _ (by norm_num)⟩
  have hinj : Function.Injective f := by
    intro k1 k2 heq
    have h1 : (L + (k1.1 + 1) * h) % 37 = (L + (k2.1 + 1) * h) % 37 :=
      congrArg Fin.val heq
    have h2 : (k1.1 + 1) * h ≡ (k2.1 + 1) * h [MOD 37] :=
      Nat.ModEq.add_left_cancel' L h1
    have h3 : (k1.1 + 1) ≡ (k2.1 + 1) [MOD 37] :=
      Nat.ModEq.cancel_right_of_coprime hcop h2
    have h4 : (k1.1 + 1) % 37 = (k2.1 + 1) % 37 := h3
    have hk1 := k1.2
    have hk2 := k2.2
    exact Fin.ext (by omega)
  have hsurj : Function.Surjective f :=
    Finite.injective_iff_surjective.mp hinj
  obtain ⟨k, hk⟩ := hsurj ⟨c, hc⟩
  exact ⟨k.1, k.2, congrArg Fin.val hk⟩

/-- Claim C3: for every `ConnectionData` whose expanded channel array has
its 40 entries and whose unmapped-channel cursor is in range (both hold
for every state the program constructs), with `number_used_channels ≥ 2`
and `hop_increment ∈ [5, 16]`, a run of 37 consecutive `next_channel`
calls completes without panicking and returns every channel marked used
in the channel map (channels 0–36) at least once. -/
theorem C3_coverage (cd : ConnectionData) (h40 : cd.channels.length = 40)
    (h37 : cd.last_unmapped_channel < 37)
    (hn : 2 ≤ cd.number_used_channels)
    (h5 : 5 ≤ cd.hop_increment) (h16 : cd.hop_increment ≤ 16)
    (c : Nat) (hc : c < 37) (hused : cd.channels.getD c 0 = 1) :
    ∃ outs, runChannels 37 cd = some outs ∧ c ∈ outs := by
  have hn0 : cd.number_used_channels ≠ 0 := by omega
  refine ⟨_, runChannels_eq 37 cd h40 hn0, ?_⟩
  obtain ⟨k, hk37, hkeq⟩ :=
    exists_hit cd.last_unmapped_channel cd.hop_increment c h5 h16 hc
  rw [List.mem_ofFn]
  refine ⟨⟨k, hk37⟩, ?_⟩
  have hun : unmappedNext (advanceK cd k) = c := by
    rw [unmappedNext, advanceK_hop, advanceK_last cd h37 h16 k]
    have hlt : (cd.last_unmapped_channel + k * cd.hop_increment) % 37
        + cd.hop_increment < 256 := by
      have := Nat.mod_lt (cd.last_unmapped_channel + k * cd.hop_increment)
        (y := 37) (by norm_num)
      omega
    rw [Nat.mod_eq_of_lt hlt, Nat.mod_add_mod, ← hkeq, Nat.succ_mul,
      ← Nat.add_assoc]
  show outOf (advanceK cd k) = c
  rw [outOf, hun, advanceK_channels, hused]
  simp

/-- Claim C3 (witness): the concrete connection of claim C2 — channels
0–31 used, hop increment 7 — returns channel 9 within 37 calls. -/
theorem C3_coverage_witness :
    ∃ outs,
      runChannels 37
        (ConnectionData.new { chm := [255, 255, 255, 255, 0], hop_and_sca := 7 }) =
        some outs ∧ 9 ∈ outs :=
  C3_coverage
    (ConnectionData.new { chm := [255, 255, 255, 255, 0], hop_and_sca := 7 })
    (by decide) (by decide) (by decide) (by decide) (by decide)
    9 (by decide) (by decide)

/-- Claim C10: `number_used_channels ≥ 2` is never checked — for a
`ConnectionData` built from an `LLData` whose channel map has no bits
set, the first `next_channel` call lands on an unused unmapped channel
and reaches the division by zero `unmapped_channel % number_used_channels`
(modelled as `none`, a Rust panic) instead of returning a channel. -/
theorem C10_mod_zero_panic :
    nextChannel (ConnectionData.new { chm := [0, 0, 0, 0, 0], hop_and_sca := 7 }) =
    none := by decide

/-! ## Radio driver: `chips/nrf52/src/radio.rs`

The driver's observable state (memory-mapped radio registers, TIMER0,
the PPI channel-enable mask, and the `Radio` struct's cells) is modelled
as a record, and each driver function as a state transformer.  Client
callbacks (external collaborators) are modelled by their responses;
calls out to clients are recorded in a trace.  `Except` models Rust
panics and busy-wait loops whose exit depends on unmodelled hardware
progress. -/

/-- `RadioState` from `radio.rs`. -/
inductive RadioState
  | TX
  | RX
  | Initialized
  | Uninitialized
deriving DecidableEq, Repr

/-- Modelled from the spec: `PhyTransition` lives in
`nrf5x/ble_advertising_hil.rs`, which is not under `src/`; the spec
gives its three values {None, MoveToRX, MoveToTX}. -/
inductive PhyTransition
  | None
  | MoveToRX
  | MoveToTX
deriving DecidableEq, Repr

/-- Modelled from the spec: `ReadAction` (return of `receive_start`),
values per spec §6.2. -/
inductive ReadAction
  | ReadFrameAndStayRX
  | ReadFrameAndMoveToTX
  | SkipFrame
deriving DecidableEq, Repr

/-- Modelled from the spec: `TxImmediate` (return of
`advertisement_done`), values per spec §6.2. -/
inductive TxImmediate
  | TX
  | RespondAfterTifs
  | GoToSleep
deriving DecidableEq, Repr

/-- Modelled from the spec: the `kernel::ReturnCode` values the driver
uses (`SUCCESS`, `FAIL`, `ENOSUPPORT`). -/
inductive ReturnCode
  | SUCCESS
  | FAIL
  | ENOSUPPORT
deriving DecidableEq, Repr

/-! Constants.  Those defined in `radio.rs` itself keep their values;
the `nrf5x::constants` values (that file is not under `src/`) are
modelled from the spec's register map and the nRF52 peripheral layout:
interrupt-enable bits READY=0, ADDRESS=1, END=3, DISABLED=4; shortcut
bits READY→START=0, END→DISABLE=1, ADDRESS→BCSTART=6; hardware state
codes Disabled=0, RxDisable=4, TxDisable=12; PPI channel `n` is bit `n`.
The claims proved below do not depend on the particular bit positions,
only on the masks being distinct single bits. -/

def RADIO_INTENSET_READY : Nat := 1
def RADIO_INTENSET_ADDRESS : Nat := 2
def RADIO_INTENSET_END : Nat := 8
def RADIO_INTENSET_DISABLED : Nat := 16

def RADIO_SHORTS_READY_START : Nat := 1
def RADIO_SHORTS_END_DISABLE : Nat := 2
def RADIO_SHORTS_ADDRESS_BCSTART : Nat := 64

def RADIO_STATE_DISABLE : Nat := 0
def RADIO_STATE_RXDISABLE : Nat := 4
def RADIO_STATE_TXDISABLE : Nat := 12

def PPI_CHEN_CH20 : Nat := 2 ^ 20
def PPI_CHEN_CH21 : Nat := 2 ^ 21
def PPI_CHEN_CH23 : Nat := 2 ^ 23
def PPI_CHEN_CH25 : Nat := 2 ^ 25
def PPI_CHEN_CH26 : Nat := 2 ^ 26
def PPI_CHEN_CH27 : Nat := 2 ^ 27
def PPI_CHEN_CH31 : Nat := 2 ^ 31

/-- CRC configuration (spec §4.2, §6.1): 3-byte CRC, skip-address. -/
def RADIO_CRCCNF_SKIPADDR : Nat := 1
def RADIO_CRCCNF_SKIPADDR_POS : Nat := 8
def RADIO_CRCCNF_LEN_3BYTES : Nat := 3
def RADIO_CRCINIT_BLE : Nat := 0x555555
def RADIO_CRCPOLY_BLE : Nat := 0x65B
def RadioMode_Ble1Mbit : Nat := 3

def RADIO_PCNF0_LFLEN_1BYTE : Nat := 8
def RADIO_PCNF0_LFLEN_POS : Nat := 0
def RADIO_PCNF0_S0_LEN_1BYTE : Nat := 1
def RADIO_PCNF0_S0LEN_POS : Nat := 8
def RADIO_PCNF0_S1_ZERO : Nat := 0
def RADIO_PCNF0_S1LEN_POS : Nat := 16
def RADIO_PCNF1_WHITEEN_ENABLED : Nat := 1
def RADIO_PCNF1_WHITEEN_POS : Nat := 25
def RADIO_PCNF1_ENDIAN_LITTLE : Nat := 0
def RADIO_PCNF1_ENDIAN_POS : Nat := 24
def RADIO_PCNF1_BALEN_3BYTES : Nat := 3
def RADIO_PCNF1_BALEN_POS : Nat := 16
def RADIO_PCNF1_STATLEN_DONT_EXTEND : Nat := 0
def RADIO_PCNF1_STATLEN_POS : Nat := 8
def RADIO_PCNF1_MAXLEN_255BYTES : Nat := 255
def RADIO_PCNF1_MAXLEN_POS : Nat := 0

-- Constants defined in `radio.rs` itself.
def NRF52_RADIO_PCNF0_S1INCL_MSK : Nat := 0
def NRF52_RADIO_PCNFO_S1INCL_POS : Nat := 20
def NRF52_RADIO_PCNF0_PLEN_POS : Nat := 24
def NRF52_RADIO_PCNF0_PLEN_8BITS : Nat := 0
def NRF52_RADIO_MODECNF0_RU_FAST : Nat := 1
def NRF52_FAST_RAMPUP_TIME_TX : Nat := 40
def NRF52_TX_DELAY : Nat := 3
def NRF52_TX_END_DELAY : Nat := 3
def NRF52_RX_END_DELAY : Nat := 7
def BLE_T_IFS : Nat := 150

/-- The link-time addresses of the static `TX_PAYLOAD` / `RX_PAYLOAD`
buffers, opaque to the driver; two distinct symbolic values. -/
def TX_PAYLOAD_ADDR : Nat := 1
def RX_PAYLOAD_ADDR : Nat := 2

/-- Wrapping 32-bit addition (release-mode Rust `u32 +`). -/
def u32add (a b : Nat) : Nat := (a + b) % 4294967296

/-- Wrapping 32-bit subtraction (release-mode Rust `u32 -`). -/
def u32sub (a b : Nat) : Nat := (a + 4294967296 - b % 4294967296) % 4294967296

/-- Bitwise and-not: clear the bits of `m` in `x` (for `intenclr` /
`ppi.disable` semantics). -/
def andNot (x m : Nat) : Nat := x - (x &&& m)

/-- The radio peripheral's registers touched by the driver.  `inten` is
the set of currently enabled interrupts: `intenset` writes OR into it,
`intenclr` writes clear bits of it, and the driver's read of `intenclr`
(used as the "currently enabled" bitmap on this peripheral) reads it.
`hwstate` is the read-only hardware state register. -/
structure Regs where
  power : Nat
  txpower : Nat
  tifs : Nat
  mode : Nat
  txaddress : Nat
  rxaddresses : Nat
  pcnf0 : Nat
  pcnf1 : Nat
  modecnf0 : Nat
  crccnf : Nat
  crcinit : Nat
  crcpoly : Nat
  packetptr : Nat
  bcc : Nat
  shorts : Nat
  inten : Nat
  event_ready : Nat
  event_address : Nat
  event_end : Nat
  event_disabled : Nat
  event_devmatch : Nat
  event_rssiend : Nat
  bcmatch : Nat
  crcok : Nat
  hwstate : Nat
  task_txen : Nat
  task_rxen : Nat
  task_disable : Nat
deriving DecidableEq, Repr

/-- TIMER0 as the driver uses it (spec §6.3). -/
structure Timer0 where
  cc0 : Nat
  cc1 : Nat
  cc2 : Nat
  eventsCompare0 : Nat
  prescaler : Nat
  bitmode : Nat
  started : Bool
deriving DecidableEq, Repr

/-- An installed `RxClient`, modelled by its responses (external
collaborator, spec §6.2). -/
structure RxClientB where
  onReceiveStart : ReadAction
  onReceiveEnd : PhyTransition
deriving DecidableEq, Repr

/-- An installed `AdvertisementClient`, modelled by its response. -/
structure AdvClientB where
  onAdvertisementDone : TxImmediate
deriving DecidableEq, Repr

/-- The whole observable driver state: registers, TIMER0, the PPI
channel-enable mask, and the `Radio` struct's cells.  `rxPayload1` is
the byte `RX_PAYLOAD[1]` (the received LENGTH byte, `< 256`). -/
structure DevState where
  regs : Regs
  timer : Timer0
  ppiChen : Nat
  tx_power : Nat
  dstate : RadioState
  channel : Option Nat
  transition : PhyTransition
  debug_bit : Bool
  rx_client : Option RxClientB
  tx_client : Option Unit
  advertisement_client : Option AdvClientB
  rxPayload1 : Nat
deriving DecidableEq, Repr

/-! ### Register-level helper operations -/

def enableInterrupt (s : DevState) (m : Nat) : DevState :=
  { s with regs := { s.regs with inten := s.regs.inten ||| m } }

def clearInterrupt (s : DevState) (m : Nat) : DevState :=
  { s with regs := { s.regs with inten := andNot s.regs.inten m } }

def disableAllInterrupts (s : DevState) : DevState :=
  { s with regs := { s.regs with inten := 0 } }

def enablePpi (s : DevState) (m : Nat) : DevState :=
  { s with ppiChen := s.ppiChen ||| m }

def disablePpi (s : DevState) (m : Nat) : DevState :=
  { s with ppiChen := andNot s.ppiChen m }

/-- `Radio::wait_until_disabled`: busy-waits only while the hardware is
mid-transition in RXDISABLE or TXDISABLE (a transition the hardware
completes within microseconds, spec §9); modelled as that transition
completing.  In any other hardware state the function returns at once. -/
def waitUntilDisabled (s : DevState) : DevState :=
  if s.regs.hwstate = RADIO_STATE_RXDISABLE ∨
      s.regs.hwstate = RADIO_STATE_TXDISABLE then
    { s with regs := { s.regs with hwstate := RADIO_STATE_DISABLE } }
  else s

def setDmaPtrTx (s : DevState) : DevState :=
  { s with regs := { s.regs with packetptr := TX_PAYLOAD_ADDR } }

def setDmaPtrRx (s : DevState) : DevState :=
  { s with regs := { s.regs with packetptr := RX_PAYLOAD_ADDR } }

/-- `Radio::setup_tx`. -/
def setupTx (s : DevState) : DevState :=
  let s := setDmaPtrTx s
  let s := { s with dstate := RadioState.TX }
  let s := { s with regs := { s.regs with
    event_ready := 0, event_end := 0, event_disabled := 0,
    shorts := RADIO_SHORTS_END_DISABLE ||| RADIO_SHORTS_READY_START } }
  enableInterrupt s RADIO_INTENSET_DISABLED

/-- `Radio::tx`. -/
def tx (s : DevState) : DevState :=
  let s := waitUntilDisabled s
  let s := setupTx s
  { s with regs := { s.regs with task_txen := 1 } }

/-- `Radio::setup_rx`. -/
def setupRx (s : DevState) : DevState :=
  let s := setDmaPtrRx s
  let s := disablePpi s PPI_CHEN_CH20
  let s := { s with dstate := RadioState.RX }
  let s := { s with regs := { s.regs with
    bcc := 8,
    event_address := 0, event_devmatch := 0, bcmatch := 0,
    event_rssiend := 0, crcok := 0,
    shorts := RADIO_SHORTS_END_DISABLE ||| RADIO_SHORTS_READY_START
      ||| RADIO_SHORTS_ADDRESS_BCSTART } }
  enableInterrupt s RADIO_INTENSET_ADDRESS

/-- `Radio::rx`. -/
def rx (s : DevState) : DevState :=
  let s := waitUntilDisabled s
  let s := disableAllInterrupts s
  let s := { s with regs := { s.regs with event_end := 0, event_disabled := 0 } }
  let s := setupRx s
  { s with regs := { s.regs with task_rxen := 1 } }

/-- `Radio::disable_radio`. -/
def disableRadio (s : DevState) : DevState :=
  let s := disableAllInterrupts s
  let s := { s with regs := { s.regs with shorts := 0, task_disable := 1 } }
  let s := disablePpi s (PPI_CHEN_CH20 ||| PPI_CHEN_CH21 ||| PPI_CHEN_CH23
    ||| PPI_CHEN_CH25 ||| PPI_CHEN_CH31)
  { s with dstate := RadioState.Initialized }

/-- `Radio::schedule_tx_after_t_ifs`: programs
`CC[0] = CC[2] + T_IFS - RX_END_DELAY - RAMPUP - TX_DELAY` and enables
PPI CH20 (CC[0] → TXEN). -/
def scheduleTxAfterTIfs (s : DevState) : DevState :=
  let time := u32sub (u32sub (u32sub (u32add s.timer.cc2 BLE_T_IFS)
    NRF52_RX_END_DELAY) NRF52_FAST_RAMPUP_TIME_TX) NRF52_TX_DELAY
  let s := { s with timer := { s.timer with cc0 := time, eventsCompare0 := 0 } }
  enablePpi s PPI_CHEN_CH20

/-- `Radio::schedule_rx_after_t_ifs`: programs
`CC[0] = CC[2] + T_IFS - TX_END_DELAY - RAMPUP - earlier_listen` and
enables PPI CH21 (CC[0] → RXEN). -/
def scheduleRxAfterTIfs (s : DevState) : DevState :=
  let earlier_listen := 2
  let time := u32sub (u32sub (u32sub (u32add s.timer.cc2 BLE_T_IFS)
    NRF52_TX_END_DELAY) NRF52_FAST_RAMPUP_TIME_TX) earlier_listen
  let s := { s with timer := { s.timer with cc0 := time, eventsCompare0 := 0 } }
  enablePpi s PPI_CHEN_CH21

/-! ### BLE initialization (`Radio::ble_initialize` and helpers) -/

/-- `Radio::radio_on`: `power = 0` then `power = 1`. -/
def radioOn (s : DevState) : DevState :=
  { s with regs := { s.regs with power := 1 } }

/-- `Radio::set_tx_power` (private): writes the stored level to the
`txpower` register. -/
def writeTxPower (s : DevState) : DevState :=
  { s with regs := { s.regs with txpower := s.tx_power } }

def setTifs (s : DevState) : DevState :=
  { s with regs := { s.regs with tifs := 150 } }

def setTxAddress (s : DevState) : DevState :=
  { s with regs := { s.regs with txaddress := 0 } }

def setRxAddress (s : DevState) : DevState :=
  { s with regs := { s.regs with rxaddresses := 1 } }

/-- `Radio::ble_set_channel_rate`: 1 Mbit BLE mode. -/
def bleSetChannelRate (s : DevState) : DevState :=
  { s with regs := { s.regs with mode := RadioMode_Ble1Mbit } }

/-- `Radio::ble_set_packet_config`: `pcnf0`, `pcnf1`, fast ramp-up. -/
def bleSetPacketConfig (s : DevState) : DevState :=
  { s with regs := { s.regs with
    pcnf0 := (RADIO_PCNF0_LFLEN_1BYTE <<< RADIO_PCNF0_LFLEN_POS)
      ||| (RADIO_PCNF0_S0_LEN_1BYTE <<< RADIO_PCNF0_S0LEN_POS)
      ||| (RADIO_PCNF0_S1_ZERO <<< RADIO_PCNF0_S1LEN_POS)
      ||| (NRF52_RADIO_PCNF0_S1INCL_MSK <<< NRF52_RADIO_PCNFO_S1INCL_POS)
      ||| (NRF52_RADIO_PCNF0_PLEN_8BITS <<< NRF52_RADIO_PCNF0_PLEN_POS),
    pcnf1 := (RADIO_PCNF1_WHITEEN_ENABLED <<< RADIO_PCNF1_WHITEEN_POS)
      ||| (RADIO_PCNF1_ENDIAN_LITTLE <<< RADIO_PCNF1_ENDIAN_POS)
      ||| (RADIO_PCNF1_BALEN_3BYTES <<< RADIO_PCNF1_BALEN_POS)
      ||| (RADIO_PCNF1_STATLEN_DONT_EXTEND <<< RADIO_PCNF1_STATLEN_POS)
      ||| (RADIO_PCNF1_MAXLEN_255BYTES <<< RADIO_PCNF1_MAXLEN_POS),
    modecnf0 := NRF52_RADIO_MODECNF0_RU_FAST } }

/-- `Radio::ble_set_crc_config`: 3-byte skip-address CRC, BLE init and
polynomial. -/
def bleSetCrcConfig (s : DevState) : DevState :=
  { s with regs := { s.regs with
    crccnf := (RADIO_CRCCNF_SKIPADDR <<< RADIO_CRCCNF_SKIPADDR_POS)
      ||| RADIO_CRCCNF_LEN_3BYTES,
    crcinit := RADIO_CRCINIT_BLE,
    crcpoly := RADIO_CRCPOLY_BLE } }

/-- `Radio::ble_initialize`: the one-time bring-up block runs only from
`Uninitialized`; the timer setup (prescaler 4 → 1 MHz, 32-bit mode,
start) runs on every call. -/
def bleInitialize (s : DevState) : DevState :=
  let s :=
    if s.dstate = RadioState.Uninitialized then
      let s := radioOn s
      let s := writeTxPower s
      let s := setTifs s
      let s := bleSetChannelRate s
      let s := setTxAddress s
      let s := setRxAddress s
      let s := bleSetPacketConfig s
      let s := bleSetCrcConfig s
      let s := { s with dstate := RadioState.Initialized }
      enablePpi s (PPI_CHEN_CH26 ||| PPI_CHEN_CH27)
    else s
  { s with timer :=
    { s.timer with prescaler := 4, bitmode := 3, started := true } }

/-! ### `BleConfig::set_tx_power` -/

/-- Modelled from the spec: the enumerated set of valid TX-power levels
(`nrf5x::constants::TxPower`, not under `src/`).  The spec fixes only
that it is a fixed enumerated set spanning −20…+10 dBm; we use the nRF5x
`u8` encodings of +4, 0, −4, −8, −12, −16, −20 dBm.  The claims proved
below do not depend on the particular members. -/
def validTxPowerLevels : List Nat := [4, 0, 252, 248, 244, 240, 236]

/-- `TxPower::try_from`, modelled from the spec (see
`validTxPowerLevels`). -/
def tryFromTxPower (level : Nat) : Option Nat :=
  if level ∈ validTxPowerLevels then some level else none

/-- `BleConfig::set_tx_power`: validate, then store on success. -/
def setTxPowerCfg (s : DevState) (level : Nat) : DevState × ReturnCode :=
  match tryFromTxPower level with
  | none => (s, ReturnCode.ENOSUPPORT)
  | some res => ({ s with tx_power := res }, ReturnCode.SUCCESS)

/-! ### Interrupt-time event handlers

Rust panics and busy-wait loops whose exit depends on unmodelled
hardware are the `Halt` outcomes; calls out to clients are recorded as
trace events. -/

deriving instance DecidableEq for Except

/-- A fatal or non-returning outcome of a handler. -/
inductive Halt
  | noRxClient
  | uninitInterrupt
  | stuckSpin
deriving DecidableEq, Repr

/-- Trace events: handler stages entered and client callbacks issued. -/
inductive Ev
  | stageReady
  | stageAddress
  | stageDisabled
  | stageEnd
  | callReceiveStart (totalLen : Nat)
  | callReceiveEnd (totalLen : Nat) (crc : ReturnCode)
  | callAdvertisementDone (resp : TxImmediate)
  | callTimerExpired
deriving DecidableEq, Repr

/-- `Radio::handle_address_event`.  Clears the ADDRESS event and the
DISABLED|ADDRESS interrupts, then spins until BCMATCH (LENGTH byte
latched) or hardware Disabled (abort: returns `false`).  With the LENGTH
byte available it calls `rx_client.receive_start(buf, RX_PAYLOAD[1] + 2)`
(`u8` addition, wraps at 256) — a missing `rx_client` is a panic — and
acts on the returned `ReadAction`.  Returns `true` after a client call. -/
def handleAddressEvent (s : DevState) :
    Except Halt (DevState × List Ev × Bool) :=
  let s := { s with regs := { s.regs with event_address := 0 } }
  let s := clearInterrupt s (RADIO_INTENSET_DISABLED ||| RADIO_INTENSET_ADDRESS)
  if s.regs.bcmatch ≠ 0 then
    match s.rx_client with
    | none => .error .noRxClient
    | some client =>
      let totalLen := (s.rxPayload1 + 2) % 256
      match client.onReceiveStart with
      | .ReadFrameAndStayRX =>
        .ok (enableInterrupt s RADIO_INTENSET_END,
          [.callReceiveStart totalLen], true)
      | .ReadFrameAndMoveToTX =>
        .ok (enableInterrupt { s with transition := .MoveToTX }
          RADIO_INTENSET_END, [.callReceiveStart totalLen], true)
      | .SkipFrame =>
        let s := waitUntilDisabled (disableRadio s)
        match s.advertisement_client with
        | none => .ok (s, [.callReceiveStart totalLen], true)
        | some adv =>
          let tr := [Ev.callReceiveStart totalLen,
            Ev.callAdvertisementDone adv.onAdvertisementDone]
          if adv.onAdvertisementDone = TxImmediate.TX then
            .ok (tx s, tr, true)
          else
            .ok (s, tr, true)
  else if s.regs.hwstate = RADIO_STATE_DISABLE then
    let s := disableAllInterrupts s
    .ok ({ s with regs := { s.regs with shorts := 0 } }, [], false)
  else
    .error .stuckSpin

/-- `Radio::handle_rx_end_event`.  Clears END, disables PPI CH21, samples
`crcok`, calls `rx_client.receive_end(buf, RX_PAYLOAD[1] + 2, crc_ok)`
(a missing `rx_client` is a panic) and acts on the returned
`PhyTransition`; with transition `None` and no advertisement client
installed the `map_or` default is `GoToSleep`. -/
def handleRxEndEvent (s : DevState) : Except Halt (DevState × List Ev) :=
  let s := { s with regs := { s.regs with event_end := 0 } }
  let s := clearInterrupt s RADIO_INTENSET_END
  let s := disablePpi s PPI_CHEN_CH21
  let crc_ok := if s.regs.crcok = 1 then ReturnCode.SUCCESS else ReturnCode.FAIL
  match s.rx_client with
  | none => .error .noRxClient
  | some client =>
    let totalLen := (s.rxPayload1 + 2) % 256
    let tr := [Ev.callReceiveEnd totalLen crc_ok]
    match client.onReceiveEnd with
    | .MoveToTX =>
      .ok (scheduleTxAfterTIfs (setupTx s), tr)
    | .MoveToRX =>
      let s := { s with debug_bit := true }
      let s := waitUntilDisabled (disableRadio s)
      .ok (rx (setupRx s), tr)
    | .None =>
      let s := waitUntilDisabled (disableRadio s)
      match s.advertisement_client with
      | none => .ok (s, tr)
      | some adv =>
        let tr := tr ++ [Ev.callAdvertisementDone adv.onAdvertisementDone]
        match adv.onAdvertisementDone with
        | .TX => .ok (tx s, tr)
        | .RespondAfterTifs => .ok (scheduleTxAfterTIfs s, tr)
        | .GoToSleep => .ok (s, tr)

/-- `Radio::handle_tx_end_event`.  Clears DISABLED and END, then acts on
the recorded transition; with `MoveToTX` and no advertisement client the
`map_or` default `GoToSleep` means no new TX.  The `assert_eq!` in the
final branch always passes (the transition is `None` by exhaustion). -/
def handleTxEndEvent (s : DevState) : DevState × List Ev :=
  let s := { s with regs := { s.regs with event_disabled := 0 } }
  let s := clearInterrupt s RADIO_INTENSET_DISABLED
  let s := { s with regs := { s.regs with event_end := 0 } }
  if s.transition = PhyTransition.MoveToRX then
    (scheduleRxAfterTIfs (setupRx s), [])
  else if s.transition = PhyTransition.MoveToTX then
    let s := waitUntilDisabled s
    match s.advertisement_client with
    | none => (s, [])
    | some adv =>
      if adv.onAdvertisementDone = TxImmediate.TX then
        (tx s, [Ev.callAdvertisementDone adv.onAdvertisementDone])
      else
        (s, [Ev.callAdvertisementDone adv.onAdvertisementDone])
  else
    (s, [])

/-- The READY diagnostic stage of `Radio::handle_interrupt`: clears the
READY interrupt enable if it fired (GPIO debug pulse not modelled). -/
def readyStep (enabled : Nat) (s : DevState) : DevState × List Ev :=
  if enabled &&& RADIO_INTENSET_READY > 0 ∧ s.regs.event_ready = 1 then
    (clearInterrupt s RADIO_INTENSET_READY, [Ev.stageReady])
  else (s, [])

/-- The DISABLED stage of `Radio::handle_interrupt`: in driver state RX
it clears the event and notifies `advertisement_client.timer_expired()`
(skipped without panic when no client is installed); in `Uninitialized`
it panics; otherwise it runs the TX end path. -/
def runStageDisabled (enabled : Nat) (s : DevState) :
    Except Halt (DevState × List Ev) :=
  if enabled &&& RADIO_INTENSET_DISABLED > 0 ∧ s.regs.event_disabled = 1 then
    if s.dstate = RadioState.RX then
      let s := { s with regs := { s.regs with event_disabled := 0 } }
      match s.advertisement_client with
      | none => .ok (s, [Ev.stageDisabled])
      | some _ => .ok (s, [Ev.stageDisabled, Ev.callTimerExpired])
    else if s.dstate = RadioState.Uninitialized then
      .error .uninitInterrupt
    else
      let p := handleTxEndEvent s
      .ok (p.1, Ev.stageDisabled :: p.2)
  else
    .ok (s, [])

/-- The END stage of `Radio::handle_interrupt`: runs the RX end path. -/
def runStageEnd (enabled : Nat) (s : DevState) :
    Except Halt (DevState × List Ev) :=
  if enabled &&& RADIO_INTENSET_END > 0 ∧ s.regs.event_end = 1 then
    match handleRxEndEvent s with
    | .error e => .error e
    | .ok (s2, trE) => .ok (s2, Ev.stageEnd :: trE)
  else
    .ok (s, [])

/-- `Radio::handle_interrupt`: reads the enabled-interrupt bitmap once,
then dispatches READY, ADDRESS, DISABLED, END in that order, each
guarded by the enabled bit and the event flag.  When the ADDRESS path
returns `true` the DISABLED bit is masked out of the local bitmap for
the rest of this pass. -/
def handleInterrupt (s : DevState) : Except Halt (DevState × List Ev) :=
  let enabled := s.regs.inten
  let p0 := readyStep enabled s
  if enabled &&& RADIO_INTENSET_ADDRESS > 0 ∧ p0.1.regs.event_address = 1 then
    match handleAddressEvent p0.1 with
    | .error e => .error e
    | .ok (s1, trA, b) =>
      let enabled2 :=
        if b then andNot enabled RADIO_INTENSET_DISABLED else enabled
      match runStageDisabled enabled2 s1 with
      | .error e => .error e
      | .ok (s2, trD) =>
        match runStageEnd enabled2 s2 with
        | .error e => .error e
        | .ok (s3, trE) =>
          .ok (s3, p0.2 ++ Ev.stageAddress :: trA ++ trD ++ trE)
  else
    match runStageDisabled enabled p0.1 with
    | .error e => .error e
    | .ok (s2, trD) =>
      match runStageEnd enabled s2 with
      | .error e => .error e
      | .ok (s3, trE) => .ok (s3, p0.2 ++ trD ++ trE)

/-! ## Claims about the radio driver -/

/-- A concrete all-zero register file, for witnesses. -/
def regs0 : Regs :=
  { power := 0, txpower := 0, tifs := 0, mode := 0, txaddress := 0,
    rxaddresses := 0, pcnf0 := 0, pcnf1 := 0, modecnf0 := 0, crccnf := 0,
    crcinit := 0, crcpoly := 0, packetptr := 0, bcc := 0, shorts := 0,
    inten := 0, event_ready := 0, event_address := 0, event_end := 0,
    event_disabled := 0, event_devmatch := 0, event_rssiend := 0,
    bcmatch := 0, crcok := 0, hwstate := 0, task_txen := 0, task_rxen := 0,
    task_disable := 0 }

/-- A concrete reset timer, for witnesses. -/
def timerReset : Timer0 :=
  { cc0 := 0, cc1 := 0, cc2 := 0, eventsCompare0 := 0, prescaler := 0,
    bitmode := 0, started := false }

/-- The boot state of the driver (`Radio::new`), for witnesses. -/
def devState0 : DevState :=
  { regs := regs0, timer := timerReset, ppiChen := 0, tx_power := 0,
    dstate := RadioState.Uninitialized, channel := none,
    transition := PhyTransition.None, debug_bit := false,
    rx_client := none, tx_client := none, advertisement_client := none,
    rxPayload1 := 0 }

/-- Claim C6: `set_tx_power` returns `ENOSUPPORT` exactly on levels
outside the enumerated set, leaving the driver state (including the
stored `tx_power`) unchanged on that error; on a valid level it stores
the level and returns `SUCCESS`. -/
theorem C6_set_tx_power (s : DevState) (level : Nat) :
    ((setTxPowerCfg s level).2 = ReturnCode.ENOSUPPORT ↔
      level ∉ validTxPowerLevels)
    ∧ (level ∉ validTxPowerLevels → (setTxPowerCfg s level).1 = s)
    ∧ (level ∈ validTxPowerLevels →
        (setTxPowerCfg s level).1 = { s with tx_power := level }
        ∧ (setTxPowerCfg s level).2 = ReturnCode.SUCCESS) := by
  by_cases h : level ∈ validTxPowerLevels
  · simp [setTxPowerCfg, tryFromTxPower, h]
  · simp [setTxPowerCfg, tryFromTxPower, h]

/-- Claim C6 (witness): level 5 dBm is rejected with no state change;
level 4 succeeds. -/
theorem C6_set_tx_power_witness :
    (setTxPowerCfg devState0 5).2 = ReturnCode.ENOSUPPORT
    ∧ (setTxPowerCfg devState0 5).1 = devState0
    ∧ (setTxPowerCfg devState0 4).2 = ReturnCode.SUCCESS :=
  ⟨(C6_set_tx_power devState0 5).1.mpr (by decide),
   (C6_set_tx_power devState0 5).2.1 (by decide),
   ((C6_set_tx_power devState0 4).2.2 (by decide)).2⟩

/-- Claim C7: starting from `Uninitialized`, calling `ble_initialize`
twice yields exactly the same state (register contents included) as
calling it once, and leaves the driver state `Initialized`. -/
theorem C7_init_idempotent (s : DevState)
    (h : s.dstate = RadioState.Uninitialized) :
    bleInitialize (bleInitialize s) = bleInitialize s
    ∧ (bleInitialize s).dstate = RadioState.Initialized := by
  constructor
  · simp [bleInitialize, h, radioOn, writeTxPower, setTifs,
      bleSetChannelRate, setTxAddress, setRxAddress, bleSetPacketConfig,
      bleSetCrcConfig, enablePpi]
  · simp [bleInitialize, h, radioOn, writeTxPower, setTifs,
      bleSetChannelRate, setTxAddress, setRxAddress, bleSetPacketConfig,
      bleSetCrcConfig, enablePpi]

/-- Claim C7 (witness): concrete double initialization from boot. -/
theorem C7_init_idempotent_witness :
    bleInitialize (bleInitialize devState0) = bleInitialize devState0
    ∧ (bleInitialize devState0).dstate = RadioState.Initialized :=
  C7_init_idempotent devState0 (by decide)

/-- Claim C4: after a received-packet end with captured `CC[2] = T`, the
RX-end path with client transition `MoveToTX` programs
`CC[0] = T + 150 − 7 − 40 − 3 = T + 100` (mod 2³²) and enables PPI CH20
(CC[0] → TXEN); the TX-end path with recorded transition `MoveToRX`
programs `CC[0] = T + 150 − 3 − 40 − 2 = T + 105` and enables PPI CH21
(CC[0] → RXEN). -/
theorem C4_turnaround :
    (∀ s rb s2 tr, s.rx_client = some rb →
      rb.onReceiveEnd = PhyTransition.MoveToTX →
      handleRxEndEvent s = .ok (s2, tr) →
      s2.timer.cc0 = (s.timer.cc2 + 100) % 4294967296
      ∧ s2.ppiChen.testBit 20 = true)
    ∧ (∀ s s2 tr, s.transition = PhyTransition.MoveToRX →
      handleTxEndEvent s = (s2, tr) →
      s2.timer.cc0 = (s.timer.cc2 + 105) % 4294967296
      ∧ s2.ppiChen.testBit 21 = true) := by
  constructor
  · intro s rb s2 tr hc hmv hrun
    simp only [handleRxEndEvent, clearInterrupt, disablePpi, hc, hmv,
      Except.ok.injEq, Prod.mk.injEq] at hrun
    obtain ⟨h1, -⟩ := hrun
    subst h1
    constructor
    · simp [scheduleTxAfterTIfs, setupTx, setDmaPtrTx, enableInterrupt,
        enablePpi, u32add, u32sub, BLE_T_IFS, NRF52_RX_END_DELAY,
        NRF52_FAST_RAMPUP_TIME_TX, NRF52_TX_DELAY]
      omega
    · simp [scheduleTxAfterTIfs, setupTx, setDmaPtrTx,
        enableInterrupt, enablePpi, PPI_CHEN_CH20, Nat.testBit_or]
      right
      decide
  · intro s s2 tr ht hrun
    simp only [handleTxEndEvent, clearInterrupt, ht, reduceCtorEq,
      reduceIte, Prod.mk.injEq] at hrun
    obtain ⟨h1, -⟩ := hrun
    subst h1
    constructor
    · simp [scheduleRxAfterTIfs, setupRx, setDmaPtrRx, disablePpi,
        enableInterrupt, enablePpi, u32add, u32sub, BLE_T_IFS,
        NRF52_TX_END_DELAY, NRF52_FAST_RAMPUP_TIME_TX]
      omega
    · simp [scheduleRxAfterTIfs, setupRx, setDmaPtrRx, disablePpi,
        enableInterrupt, enablePpi, PPI_CHEN_CH21, Nat.testBit_or]
      right
      decide

/-- A client that keeps frames in RX and requests `MoveToTX` at frame
end, for witnesses. -/
def moveToTxClient : RxClientB :=
  { onReceiveStart := ReadAction.ReadFrameAndStayRX
    onReceiveEnd := PhyTransition.MoveToTX }

/-- Concrete state for the C4 witness, RX side: client answers
`MoveToTX`, captured end timestamp `CC[2] = 1000`. -/
def rxTurnState : DevState :=
  { devState0 with
    rx_client := some moveToTxClient
    timer := { timerReset with cc2 := 1000 } }

/-- Concrete state for the C4 witness, TX side: recorded transition
`MoveToRX`, captured end timestamp `CC[2] = 2000`. -/
def txTurnState : DevState :=
  { devState0 with
    transition := PhyTransition.MoveToRX
    timer := { timerReset with cc2 := 2000 } }

/-- Claim C4 (witness): `CC[0]` becomes 1100 after the RX-end `MoveToTX`
path with `CC[2] = 1000`, and 2105 after the TX-end `MoveToRX` path with
`CC[2] = 2000`. -/
theorem C4_turnaround_witness :
    ∃ s2 tr, handleRxEndEvent rxTurnState = .ok (s2, tr)
      ∧ s2.timer.cc0 = 1100
      ∧ s2.ppiChen.testBit 20 = true
      ∧ (handleTxEndEvent txTurnState).1.timer.cc0 = 2105
      ∧ (handleTxEndEvent txTurnState).1.ppiChen.testBit 21 = true := by
  rcases hx : handleRxEndEvent rxTurnState with e | ⟨s2, tr⟩
  · cases e <;> exact absurd hx (by decide)
  · have h1 := C4_turnaround.1 rxTurnState _ s2 tr rfl rfl hx
    have h2 := C4_turnaround.2 txTurnState (handleTxEndEvent txTurnState).1
      (handleTxEndEvent txTurnState).2 rfl rfl
    refine ⟨s2, tr, rfl, ?_, h1.2, ?_, h2.2⟩
    · rw [h1.1]; decide
    · rw [h2.1]; decide

/-- Claim C9: the total length passed to `receive_start` and
`receive_end` is `RX_PAYLOAD[1] + 2` in wrapping 8-bit arithmetic —
`(RX_PAYLOAD[1] + 2) % 256` — so received LENGTH bytes 254 and 255
yield totals 0 and 1 rather than being rejected or saturated. -/
theorem C9_total_len (s : DevState) (rb : RxClientB)
    (hc : s.rx_client = some rb) :
    ((s.regs.bcmatch ≠ 0 → ∀ s1 trA b,
      handleAddressEvent s = .ok (s1, trA, b) →
      Ev.callReceiveStart ((s.rxPayload1 + 2) % 256) ∈ trA)
    ∧ (∀ s2 tr, handleRxEndEvent s = .ok (s2, tr) →
      Ev.callReceiveEnd ((s.rxPayload1 + 2) % 256)
        (if s.regs.crcok = 1 then ReturnCode.SUCCESS else ReturnCode.FAIL)
          ∈ tr)) := by
  constructor
  · intro hb s1 trA b hrun
    simp only [handleAddressEvent, clearInterrupt, hc] at hrun
    rw [if_pos (by simpa using hb)] at hrun
    split at hrun <;>
      [skip; skip; (split at hrun <;> [skip; (split at hrun <;> skip)])] <;>
      simp only [Except.ok.injEq, Prod.mk.injEq] at hrun <;>
      obtain ⟨-, h2, -⟩ := hrun <;> subst h2 <;> simp
  · intro s2 tr hrun
    simp only [handleRxEndEvent, clearInterrupt, disablePpi, hc] at hrun
    split at hrun <;>
      [skip; skip;
        (split at hrun <;> [skip; (split at hrun <;> [skip; skip; skip])])] <;>
      simp only [Except.ok.injEq, Prod.mk.injEq] at hrun <;>
      obtain ⟨-, h2⟩ := hrun <;> subst h2 <;> simp

/-- Concrete state for the C9 witness: LENGTH byte 255, BCMATCH set. -/
def wrapLenState : DevState :=
  { devState0 with
    rx_client := some moveToTxClient
    rxPayload1 := 255
    regs := { regs0 with bcmatch := 1 } }

/-- Claim C9 (witness): with `RX_PAYLOAD[1] = 255`, `receive_start` is
called with total length `(255 + 2) % 256 = 1`. -/
theorem C9_total_len_witness :
    ∃ s1 trA b, handleAddressEvent wrapLenState = .ok (s1, trA, b)
      ∧ Ev.callReceiveStart 1 ∈ trA := by
  rcases hx : handleAddressEvent wrapLenState with e | ⟨s1, trA, b⟩
  · cases e <;> exact absurd hx (by decide)
  · have h := (C9_total_len wrapLenState moveToTxClient rfl).1
      (by decide) s1 trA b hx
    exact ⟨s1, trA, b, rfl, h⟩

/-- Concrete state for the C5 counterexample: driver in RX, DISABLED
interrupt enabled and its event pending (an RX window closing, which
would deliver `timer_expired`), but no advertisement client installed. -/
def exC5 : DevState :=
  { devState0 with
    dstate := RadioState.RX
    regs := { regs0 with inten := 16, event_disabled := 1 } }

/-- Claim C5 (counterexample): with no advertisement client installed
and the `timer_expired` callback due (DISABLED fired in RX), the
interrupt handler does **not** halt fatally — it completes normally,
merely skipping the callback — refuting the claim that every missing
client is fatal. -/
theorem C5_counterexample :
    handleInterrupt exC5 =
      .ok ({ exC5 with regs := { exC5.regs with event_disabled := 0 } },
        [Ev.stageDisabled]) := by decide

/-- Claim C5 (amended): a missing `rx_client` when `receive_start` or
`receive_end` would fire is fatal (panic), but a missing
`advertisement_client` is tolerated: `timer_expired` is silently
skipped, and `advertisement_done` defaults to `GoToSleep` (no new TX is
started at TX end with transition `MoveToTX`). -/
theorem C5_missing_client_amended :
    (∀ s, s.rx_client = none → s.regs.bcmatch ≠ 0 →
      handleAddressEvent s = .error Halt.noRxClient)
    ∧ (∀ s, s.rx_client = none →
      handleRxEndEvent s = .error Halt.noRxClient)
    ∧ (∀ en s, s.advertisement_client = none → s.dstate = RadioState.RX →
      en &&& RADIO_INTENSET_DISABLED > 0 → s.regs.event_disabled = 1 →
      runStageDisabled en s =
        .ok ({ s with regs := { s.regs with event_disabled := 0 } },
          [Ev.stageDisabled]))
    ∧ (∀ s, s.advertisement_client = none →
      s.transition = PhyTransition.MoveToTX →
      (handleTxEndEvent s).2 = []
      ∧ (handleTxEndEvent s).1.regs.task_txen = s.regs.task_txen) := by
  refine ⟨?_, ?_, ?_, ?_⟩
  · intro s hcl hb
    simp [handleAddressEvent, clearInterrupt, hcl, hb]
  · intro s hcl
    simp [handleRxEndEvent, clearInterrupt, disablePpi, hcl]
  · intro en s hadv hrx hen hev
    simp [runStageDisabled, hen, hev, hrx, hadv]
  · intro s hadv ht
    simp only [handleTxEndEvent, clearInterrupt, ht, reduceCtorEq,
      reduceIte, waitUntilDisabled]
    by_cases hw : s.regs.hwstate = RADIO_STATE_RXDISABLE ∨
        s.regs.hwstate = RADIO_STATE_TXDISABLE
    · simp [hw, hadv]
    · simp [hw, hadv]

/-- Claim C5 (witness for the amended theorem): concrete missing
`rx_client` panic and concrete tolerated missing advertisement client. -/
theorem C5_missing_client_witness :
    handleAddressEvent { devState0 with regs := { regs0 with bcmatch := 1 } }
      = .error Halt.noRxClient
    ∧ runStageDisabled 16 exC5 =
      .ok ({ exC5 with regs := { exC5.regs with event_disabled := 0 } },
        [Ev.stageDisabled]) := by
  constructor
  · exact C5_missing_client_amended.1 _ rfl (by decide)
  · exact C5_missing_client_amended.2.2.1 16 exC5 rfl rfl (by decide) rfl

/-! ### Claim C8: dispatch ordering within one interrupt entry -/

/-- Stage markers (as opposed to client-callback events) in a trace. -/
def isStage : Ev → Bool
  | .stageReady => true
  | .stageAddress => true
  | .stageDisabled => true
  | .stageEnd => true
  | _ => false

lemma handleAddressEvent_stage_free (s s1 : DevState) (trA : List Ev)
    (b : Bool) (h : handleAddressEvent s = .ok (s1, trA, b)) :
    trA.filter isStage = [] := by
  simp only [handleAddressEvent, clearInterrupt] at h
  repeat' split at h
  all_goals simp only [reduceCtorEq, Except.ok.injEq, Prod.mk.injEq] at h
  all_goals obtain ⟨-, h2, -⟩ := h
  all_goals subst h2
  all_goals simp [isStage]

lemma handleRxEndEvent_stage_free (s s2 : DevState) (tr : List Ev)
    (h : handleRxEndEvent s = .ok (s2, tr)) :
    tr.filter isStage = [] := by
  simp only [handleRxEndEvent, clearInterrupt, disablePpi] at h
  repeat' split at h
  all_goals simp only [reduceCtorEq, Except.ok.injEq, Prod.mk.injEq] at h
  all_goals obtain ⟨-, h2⟩ := h
  all_goals subst h2
  all_goals simp [isStage]

lemma handleTxEndEvent_stage_free (s : DevState) :
    (handleTxEndEvent s).2.filter isStage = [] := by
  simp only [handleTxEndEvent, clearInterrupt]
  repeat' split
  all_goals simp [isStage]

lemma runStageDisabled_stage_trace (en : Nat) (s s2 : DevState)
    (trD : List Ev) (h : runStageDisabled en s = .ok (s2, trD)) :
    trD.filter isStage =
      (if en &&& RADIO_INTENSET_DISABLED > 0 ∧ s.regs.event_disabled = 1
       then [Ev.stageDisabled] else []) := by
  simp only [runStageDisabled] at h
  split at h
  case isTrue hg =>
    rw [if_pos hg]
    repeat' split at h
    all_goals simp only [reduceCtorEq, Except.ok.injEq, Prod.mk.injEq] at h
    all_goals obtain ⟨-, h2⟩ := h
    all_goals subst h2
    all_goals simp [isStage, handleTxEndEvent_stage_free]
  case isFalse hg =>
    rw [if_neg hg]
    simp only [Except.ok.injEq, Prod.mk.injEq] at h
    obtain ⟨-, h2⟩ := h
    subst h2
    simp

lemma runStageEnd_stage_trace (en : Nat) (s s2 : DevState) (trE : List Ev)
    (h : runStageEnd en s = .ok (s2, trE)) :
    trE.filter isStage =
      (if en &&& RADIO_INTENSET_END > 0 ∧ s.regs.event_end = 1
       then [Ev.stageEnd] else []) := by
  simp only [runStageEnd] at h
  split at h
  case isTrue hg =>
    rw [if_pos hg]
    split at h
    · simp at h
    · rename_i p heq
      simp only [Except.ok.injEq, Prod.mk.injEq] at h
      obtain ⟨-, h2⟩ := h
      subst h2
      simp [isStage, handleRxEndEvent_stage_free _ _ _ heq]
  case isFalse hg =>
    rw [if_neg hg]
    simp only [Except.ok.injEq, Prod.mk.injEq] at h
    obtain ⟨-, h2⟩ := h
    subst h2
    simp

lemma readyStep_trace (en : Nat) (s : DevState) :
    (readyStep en s).2 =
      (if en &&& RADIO_INTENSET_READY > 0 ∧ s.regs.event_ready = 1
       then [Ev.stageReady] else []) := by
  simp only [readyStep]
  split <;> rfl

lemma readyStep_event_address (en : Nat) (s : DevState) :
    (readyStep en s).1.regs.event_address = s.regs.event_address := by
  simp only [readyStep]
  split <;> rfl

lemma and_pow_sixteen (x : Nat) : x &&& 16 = (x.testBit 4).toNat * 16 := by
  have h := Nat.and_two_pow x 4
  norm_num at h
  exact h

lemma and_pow_eight (x : Nat) : x &&& 8 = (x.testBit 3).toNat * 8 := by
  have h := Nat.and_two_pow x 3
  norm_num at h
  exact h

/-- Clearing the DISABLED bit from the local bitmap makes its guard
fail. -/
lemma andNot_disabled_disabled (x : Nat) :
    andNot x RADIO_INTENSET_DISABLED &&& RADIO_INTENSET_DISABLED = 0 := by
  simp only [RADIO_INTENSET_DISABLED, andNot]
  rw [and_pow_sixteen x, and_pow_sixteen (x - (x.testBit 4).toNat * 16)]
  rcases hb : x.testBit 4 with _ | _
  · simp [hb]
  · have hb1 : x / 2 ^ 4 % 2 = 1 := by
      rw [Nat.testBit_to_div_mod] at hb
      simpa using hb
    have h2 : (x - 16).testBit 4 = false := by
      rw [Nat.testBit_to_div_mod]
      simp only [decide_eq_false_iff_not]
      norm_num at hb1 ⊢
      omega
    simp [hb, h2]

/-- Clearing the DISABLED bit leaves the END bit unchanged. -/
lemma andNot_disabled_end (x : Nat) :
    andNot x RADIO_INTENSET_DISABLED &&& RADIO_INTENSET_END
      = x &&& RADIO_INTENSET_END := by
  simp only [RADIO_INTENSET_DISABLED, RADIO_INTENSET_END, andNot]
  rw [and_pow_sixteen x, and_pow_eight, and_pow_eight x]
  suffices hs : (x - (x.testBit 4).toNat * 16).testBit 3 = x.testBit 3 by
    rw [hs]
  rcases hb : x.testBit 4 with _ | _
  · simp
  · have hb1 : x / 16 % 2 = 1 := by
      rw [Nat.testBit_to_div_mod] at hb
      norm_num at hb
      exact hb
    simp only [Bool.toNat_true, one_mul]
    rw [Nat.testBit_to_div_mod, Nat.testBit_to_div_mod]
    simp only [decide_eq_decide]
    norm_num
    omega

lemma stage_mem_filter (e : Ev) (he : isStage e = true) (tr : List Ev) :
    e ∈ tr ↔ e ∈ tr.filter isStage := by
  simp [List.mem_filter, he]

/-- Claim C8: within a single entry of `handle_interrupt`, the stages
run in the order ADDRESS, DISABLED, END (and an optional READY stage
first); the ADDRESS stage runs exactly when its enabled-interrupt bit
and event flag are both set at entry; the DISABLED and END stages run
only when their enabled-interrupt bits were set at entry; and when the
ADDRESS path runs and returns `true`, the DISABLED stage is masked out
of the rest of that pass. -/
theorem C8_dispatch_order (s s3 : DevState) (tr : List Ev)
    (h : handleInterrupt s = .ok (s3, tr)) :
    (tr.filter isStage).Sublist
      [Ev.stageReady, Ev.stageAddress, Ev.stageDisabled, Ev.stageEnd]
    ∧ (Ev.stageAddress ∈ tr ↔
      (s.regs.inten &&& RADIO_INTENSET_ADDRESS > 0 ∧ s.regs.event_address = 1))
    ∧ (Ev.stageDisabled ∈ tr → s.regs.inten &&& RADIO_INTENSET_DISABLED > 0)
    ∧ (Ev.stageEnd ∈ tr → s.regs.inten &&& RADIO_INTENSET_END > 0)
    ∧ (∀ sA trA,
      (s.regs.inten &&& RADIO_INTENSET_ADDRESS > 0 ∧ s.regs.event_address = 1) →
      handleAddressEvent (readyStep s.regs.inten s).1 = .ok (sA, trA, true) →
      Ev.stageDisabled ∉ tr) := by
  simp only [handleInterrupt] at h
  split at h
  case isTrue hga =>
    rw [readyStep_event_address] at hga
    split at h
    case h_1 => simp at h
    case h_2 s1 trA b heqA =>
      split at h
      case h_1 => simp at h
      case h_2 s2 trD heqD =>
        split at h
        case h_1 => simp at h
        case h_2 s3x trE heqE =>
          simp only [Except.ok.injEq, Prod.mk.injEq] at h
          obtain ⟨-, htr⟩ := h
          subst htr
          have hfA := handleAddressEvent_stage_free _ _ _ _ heqA
          have hfD := runStageDisabled_stage_trace _ _ _ _ heqD
          have hfE := runStageEnd_stage_trace _ _ _ _ heqE
          have hfR := readyStep_trace s.regs.inten s
          have hfil :
              (((readyStep s.regs.inten s).2 ++ Ev.stageAddress :: trA
                ++ trD) ++ trE).filter isStage =
              ((if s.regs.inten &&& RADIO_INTENSET_READY > 0
                    ∧ s.regs.event_ready = 1
                then [Ev.stageReady] else []) ++ Ev.stageAddress
                :: (if (if b then andNot s.regs.inten RADIO_INTENSET_DISABLED
                        else s.regs.inten) &&& RADIO_INTENSET_DISABLED > 0
                      ∧ s1.regs.event_disabled = 1
                    then [Ev.stageDisabled] else [])) ++
                (if (if b then andNot s.regs.inten RADIO_INTENSET_DISABLED
                      else s.regs.inten) &&& RADIO_INTENSET_END > 0
                    ∧ s2.regs.event_end = 1
                  then [Ev.stageEnd] else []) := by
            simp only [List.filter_append, List.filter_cons, hfA, hfD, hfE,
              hfR, isStage, List.nil_append, List.append_nil, if_true]
            split_ifs <;> decide
          refine ⟨?_, ?_, ?_, ?_, ?_⟩
          · rw [hfil]
            split_ifs <;> simp
          · constructor
            · intro _
              exact hga
            · intro _
              simp
          · intro hmem
            have hm2 := (stage_mem_filter Ev.stageDisabled rfl _).mp hmem
            rw [hfil] at hm2
            have hdd := andNot_disabled_disabled s.regs.inten
            rcases b with _ | _ <;>
              simp only [Bool.false_eq_true, if_false, if_true] at hm2 <;>
              split_ifs at hm2 <;> (try simp at hm2) <;> omega
          · intro hmem
            have hm2 := (stage_mem_filter Ev.stageEnd rfl _).mp hmem
            rw [hfil] at hm2
            have hend := andNot_disabled_end s.regs.inten
            rcases b with _ | _ <;>
              simp only [Bool.false_eq_true, if_false, if_true] at hm2 <;>
              split_ifs at hm2 <;> (try simp at hm2) <;> omega
          · intro sA trA2 _ heq2
            rw [heqA] at heq2
            simp only [Except.ok.injEq, Prod.mk.injEq] at heq2
            obtain ⟨-, -, hb⟩ := heq2
            subst hb
            intro hmem
            have hm2 := (stage_mem_filter Ev.stageDisabled rfl _).mp hmem
            rw [hfil] at hm2
            simp only [if_true] at hm2
            have hdd := andNot_disabled_disabled s.regs.inten
            split_ifs at hm2 <;> (try simp at hm2) <;> omega
  case isFalse hga =>
    rw [readyStep_event_address] at hga
    split at h
    case h_1 => simp at h
    case h_2 s2 trD heqD =>
      split at h
      case h_1 => simp at h
      case h_2 s3x trE heqE =>
        simp only [Except.ok.injEq, Prod.mk.injEq] at h
        obtain ⟨-, htr⟩ := h
        subst htr
        have hfD := runStageDisabled_stage_trace _ _ _ _ heqD
        have hfE := runStageEnd_stage_trace _ _ _ _ heqE
        have hfR := readyStep_trace s.regs.inten s
        have hfil :
            (((readyStep s.regs.inten s).2 ++ trD) ++ trE).filter isStage =
            ((if s.regs.inten &&& RADIO_INTENSET_READY > 0
                  ∧ s.regs.event_ready = 1
              then [Ev.stageReady] else []) ++
              (if s.regs.inten &&& RADIO_INTENSET_DISABLED > 0
                  ∧ (readyStep s.regs.inten s).1.regs.event_disabled = 1
                then [Ev.stageDisabled] else [])) ++
              (if s.regs.inten &&& RADIO_INTENSET_END > 0
                  ∧ s2.regs.event_end = 1
                then [Ev.stageEnd] else []) := by
          simp only [List.filter_append, hfD, hfE, hfR]
          split_ifs <;> decide
        refine ⟨?_, ?_, ?_, ?_, ?_⟩
        · rw [hfil]
          split_ifs <;> simp
        · constructor
          · intro hmem
            have hm2 := (stage_mem_filter Ev.stageAddress rfl _).mp hmem
            rw [hfil] at hm2
            split_ifs at hm2 <;> simp at hm2
          · intro hg
            exact absurd hg hga
        · intro hmem
          have hm2 := (stage_mem_filter Ev.stageDisabled rfl _).mp hmem
          rw [hfil] at hm2
          split_ifs at hm2 <;> (try simp at hm2) <;> omega
        · intro hmem
          have hm2 := (stage_mem_filter Ev.stageEnd rfl _).mp hmem
          rw [hfil] at hm2
          split_ifs at hm2 <;> (try simp at hm2) <;> omega
        · intro sA trA2 hg _
          exact absurd hg hga

/-- Concrete state for the C8 witness: ADDRESS interrupt enabled and
fired, BCMATCH latched, client installed. -/
def exC8 : DevState :=
  { devState0 with
    rx_client := some moveToTxClient
    regs := { regs0 with inten := 2, event_address := 1, bcmatch := 1 } }

/-- Claim C8 (witness): a concrete interrupt entry whose stage trace is
ordered and whose ADDRESS stage ran. -/
theorem C8_dispatch_order_witness :
    ∃ s3 tr, handleInterrupt exC8 = .ok (s3, tr)
      ∧ (tr.filter isStage).Sublist
        [Ev.stageReady, Ev.stageAddress, Ev.stageDisabled, Ev.stageEnd]
      ∧ Ev.stageAddress ∈ tr := by
  rcases hx : handleInterrupt exC8 with e | ⟨s3, tr⟩
  · cases e <;> exact absurd hx (by decide)
  · have h := C8_dispatch_order exC8 s3 tr hx
    exact ⟨s3, tr, rfl, h.1, h.2.1.mpr (by decide)⟩
